import Mathlib

/-!
# Bearer-token verification: key-set cache, key reconstruction, auth middleware

A shallow embedding of `server/internal/auth/middleware.go` and of
`UserHandler.VerifySession` from `server/internal/auth/handlers.go`.

Conventions of the embedding.

* A Go `string` is its sequence of bytes, `List Nat`, each byte below 256
  (`len`, slicing and base64 all work on bytes).
* The package-level variable `jwksCache` is passed in and returned explicitly.
* Everything a call reads from the outside world (environment variable, clock,
  HTTP response) is a field of `Env`; every outside call that is made is
  appended to an event log.
* Go's `int` is 64 bits wide: it is a bit pattern below `2^64`, read as a
  two's-complement number.
* Functions of the Go standard library and of `golang-jwt` that the code calls
  are modelled next to the code, under the name of their package.
-/

namespace Auth

/-! ## Go strings -/

/-- A Go string: a finite sequence of bytes. -/
abbrev GoString := List Nat

/-- The bytes of an ASCII string literal. -/
def lit (s : String) : GoString := s.toList.map Char.toNat

/-- Go `strings.HasPrefix`. -/
def strings.HasPrefix (s pre : GoString) : Bool := pre.isPrefixOf s

/-- Go `strings.TrimPrefix`: `s` without the leading `pre`, or `s` itself. -/
def strings.TrimPrefix (s pre : GoString) : GoString :=
  if strings.HasPrefix s pre then s.drop pre.length else s

/-- Go `strings.TrimSuffix`: `s` without the trailing `suf`, or `s` itself. -/
def strings.TrimSuffix (s suf : GoString) : GoString :=
  if suf.isSuffixOf s then s.take (s.length - suf.length) else s

/-- Go `strings.ReplaceAll` for a one-byte pattern and a one-byte replacement. -/
def strings.ReplaceAll (s : GoString) (old new : Nat) : GoString :=
  s.map fun c => if c = old then new else c

/-- Go `strings.Repeat` for a one-byte string. -/
def strings.Repeat (c : Nat) (count : Nat) : GoString := List.replicate count c

/-! ## `encoding/base64`, standard alphabet with padding -/

/-- The decode map of `base64.StdEncoding`: the 6-bit value of an alphabet
byte, `0xff` for every other byte. -/
def base64.decodeMap (c : Nat) : Nat :=
  if 65 ≤ c ∧ c ≤ 90 then c - 65
  else if 97 ≤ c ∧ c ≤ 122 then c - 97 + 26
  else if 48 ≤ c ∧ c ≤ 57 then c - 48 + 52
  else if c = 43 then 62
  else if c = 47 then 63
  else 0xff

/-- The inner loops of `decodeQuantum` that skip over `\n` and `\r`. -/
def base64.skipNewlines : List Nat → List Nat
  | [] => []
  | c :: rest => if c = 10 ∨ c = 13 then base64.skipNewlines rest else c :: rest

/-- The tail of `decodeQuantum`: the 6-bit values collected in `dbuf`
(`dlen` of them) are assembled into `dlen - 1` bytes. -/
def base64.assemble (dbuf : List Nat) : List Nat :=
  let val := (dbuf.getD 0 0 <<< 18) ||| (dbuf.getD 1 0 <<< 12) |||
    (dbuf.getD 2 0 <<< 6) ||| dbuf.getD 3 0
  ([(val >>> 16) % 256, (val >>> 8) % 256, (val >>> 0) % 256]).take (dbuf.length - 1)

/-- The loop of `Encoding.Decode` over `decodeQuantum` for `StdEncoding`
(padding character `=`, not strict). `dbuf` holds the 6-bit values of the
quantum being read (`j = dbuf.length`). `none` is a `CorruptInputError`. -/
def base64.decodeLoop : List Nat → List Nat → Option (List Nat)
  | [], dbuf => if dbuf.length = 0 then some [] else none
  | c :: rest, dbuf =>
    if base64.decodeMap c ≠ 0xff then
      if dbuf.length = 3 then
        (base64.decodeLoop rest []).map fun out =>
          base64.assemble (dbuf ++ [base64.decodeMap c]) ++ out
      else base64.decodeLoop rest (dbuf ++ [base64.decodeMap c])
    else if c = 10 ∨ c = 13 then base64.decodeLoop rest dbuf
    else if c ≠ 61 then none
    else
      match dbuf.length with
      | 2 =>
        match base64.skipNewlines rest with
        | [] => none
        | d :: rest2 =>
          if d ≠ 61 then none
          else if base64.skipNewlines rest2 = [] then some (base64.assemble dbuf)
          else none
      | 3 => if base64.skipNewlines rest = [] then some (base64.assemble dbuf) else none
      | _ => none

/-- Go `base64.StdEncoding.DecodeString`; `none` when it returns an error. -/
def base64.StdEncoding.DecodeString (s : GoString) : Option (List Nat) :=
  base64.decodeLoop s []

/-! ## Key material -/

/-- One entry of the key set (`JWTKey`). -/
structure JWTKey where
  Kty : GoString
  Kid : GoString
  Use : GoString
  N : GoString
  E : GoString
  deriving DecidableEq, Repr

/-- The key set (`JWTKeys`). -/
structure JWTKeys where
  Keys : List JWTKey
  deriving DecidableEq, Repr

/-- Go `rsa.PublicKey`: modulus `N` (a `*big.Int`) and exponent `E` (an `int`). -/
structure PublicKey where
  N : Int
  E : Int
  deriving DecidableEq, Repr

/-- Instants of the clock, in nanoseconds. -/
abbrev Time := Int

/-- Go `24 * time.Hour`, in nanoseconds. -/
def ttl : Int := 24 * 3600000000000

/-- The package-level variable `jwksCache`; `keys = none` is the nil pointer. -/
structure JWKSCache where
  keys : Option JWTKeys
  expiry : Time
  deriving DecidableEq, Repr

/-- The errors `getPublicKey` returns. -/
inductive KeyError where
  /-- "SUPABASE_URL environment variable not set". -/
  | envNotSet
  /-- "error fetching JWKS: %v". -/
  | fetchingJWKS (cause : GoString)
  /-- "error decoding JWKS: %v". -/
  | decodingJWKS (cause : GoString)
  /-- "invalid modulus: %v". -/
  | invalidModulus
  /-- "invalid exponent: %v". -/
  | invalidExponent
  /-- "key ID not found: %s". -/
  | keyIDNotFound (kid : GoString)
  deriving DecidableEq, Repr

/-- Go `base64URLDecode` (middleware.go, lines 174-187). -/
def base64URLDecode (str : GoString) : Option (List Nat) :=
  let padding := 4 - str.length % 4
  let str := if padding < 4 then str ++ strings.Repeat 61 padding else str
  let str := strings.ReplaceAll str 45 43
  let str := strings.ReplaceAll str 95 47
  base64.StdEncoding.DecodeString str

/-- Go `new(big.Int).SetBytes`: the bytes read as a big-endian unsigned integer. -/
def big.SetBytes (buf : List Nat) : Int :=
  ((buf.foldl (fun acc b => acc * 256 + b) 0 : Nat) : Int)

/-- The value of a 64-bit pattern as a Go `int`. -/
def int64 (bits : Nat) : Int :=
  if bits % 2 ^ 64 < 2 ^ 63 then ((bits % 2 ^ 64 : Nat) : Int)
  else ((bits % 2 ^ 64 : Nat) : Int) - 2 ^ 64

/-- The loop `eInt = eInt<<8 | int(e[i])` (lines 157-160) on the bit pattern
of `eInt`, starting from `eInt`. -/
def shiftOr (eInt : Nat) (e : List Nat) : Nat :=
  e.foldl (fun eInt b => ((eInt <<< 8) ||| b) % 2 ^ 64) eInt

/-- The body of the `if key.Kid == kid` branch (lines 142-166). -/
def parseKey (key : JWTKey) : Except KeyError PublicKey :=
  match base64URLDecode key.N with
  | none => .error .invalidModulus
  | some n =>
    match base64URLDecode key.E with
    | none => .error .invalidExponent
    | some e => .ok { N := big.SetBytes n, E := int64 (shiftOr 0 e) }

/-- The loop `for _, key := range jwksCache.keys.Keys` with the final
`return nil, "key ID not found"` (lines 140-170). -/
def findKey (kid : GoString) : List JWTKey → Except KeyError PublicKey
  | [] => .error (.keyIDNotFound kid)
  | key :: rest => if key.Kid = kid then parseKey key else findKey kid rest

/-! ## The outside world of one call -/

/-- The HTTP response of the key-set endpoint, as far as the code looks at it. -/
structure Response where
  /-- The field `resp.StatusCode`. -/
  StatusCode : Nat
  /-- What `json.NewDecoder(resp.Body).Decode(&keys)` yields on the body: the
  decoder's error, or the decoded `JWTKeys`. -/
  decoded : Except GoString JWTKeys

/-- What one call reads from outside the program. -/
structure Env where
  /-- The value of `os.Getenv("SUPABASE_URL")`. -/
  SUPABASE_URL : GoString
  /-- The value of `time.Now()` at the freshness test (line 119). -/
  now : Time
  /-- The result of `http.Get(url)`: a transport error or a response. -/
  Get : GoString → Except GoString Response
  /-- The value of `time.Now()` when the cache is updated (line 136). -/
  nowStore : Time

/-- The calls whose occurrence is recorded. -/
inductive Event where
  | validateToken (tokenString : GoString)
  | httpGet (url : GoString)
  deriving DecidableEq, Repr

/-- The result of a stateful function: its return value, `jwksCache` after
the call, and the recorded calls it made, in order. -/
structure Effect (α : Type) where
  value : α
  cache : JWKSCache
  log : List Event

/-- The URL built at line 121. -/
def jwksURL (supabaseURL : GoString) : GoString :=
  strings.TrimSuffix supabaseURL (lit "/") ++ lit "/auth/v1/jwks"

/-- The refresh branch of `getPublicKey` (lines 120-136) followed by the
lookup (lines 140-170). -/
def refreshAndFind (env : Env) (jwksCache : JWKSCache) (kid : GoString) :
    Effect (Except KeyError PublicKey) :=
  let jwksURL := jwksURL env.SUPABASE_URL
  match env.Get jwksURL with
  | .error err => ⟨.error (.fetchingJWKS err), jwksCache, [.httpGet jwksURL]⟩
  | .ok resp =>
    match resp.decoded with
    | .error err => ⟨.error (.decodingJWKS err), jwksCache, [.httpGet jwksURL]⟩
    | .ok keys =>
      ⟨findKey kid keys.Keys, ⟨some keys, env.nowStore + ttl⟩, [.httpGet jwksURL]⟩

/-- Go `getPublicKey` (middleware.go, lines 111-171). -/
def getPublicKey (env : Env) (jwksCache : JWKSCache) (kid : GoString) :
    Effect (Except KeyError PublicKey) :=
  if env.SUPABASE_URL = [] then ⟨.error .envNotSet, jwksCache, []⟩
  else
    match jwksCache.keys with
    | none => refreshAndFind env jwksCache kid
    | some keys =>
      if env.now > jwksCache.expiry then refreshAndFind env jwksCache kid
      else ⟨findKey kid keys.Keys, jwksCache, []⟩

/-! ## `golang-jwt`: tokens and `jwt.Parse` -/

/-- A decoded JSON value held in a `map[string]interface{}`. A number is kept
as the bit pattern of its `float64`. -/
inductive Value where
  | null
  | bool (b : Bool)
  | number (bits : Nat)
  | string (s : GoString)
  | array (items : List Value)
  | object (fields : List (GoString × Value))

/-- The dynamic type of `token.Method`: the signing-method types of the library. -/
inductive SigningMethod where
  /-- A `*jwt.SigningMethodHMAC` (HS256, HS384, HS512). -/
  | HMAC (alg : GoString)
  /-- A `*jwt.SigningMethodRSA` (RS256, RS384, RS512). -/
  | RSA (alg : GoString)
  /-- A `*jwt.SigningMethodRSAPSS` (PS256, PS384, PS512). -/
  | RSAPSS (alg : GoString)
  /-- A `*jwt.SigningMethodECDSA` (ES256, ES384, ES512). -/
  | ECDSA (alg : GoString)
  /-- The `*jwt.SigningMethodEd25519` (EdDSA). -/
  | Ed25519
  /-- The method of alg "none". -/
  | None
  /-- A method registered by other code. -/
  | registered (alg : GoString)
  deriving DecidableEq, Repr

/-- The type assertion `token.Method.(*jwt.SigningMethodRSA)` succeeds. -/
def SigningMethod.isRSA : SigningMethod → Bool
  | .RSA _ => true
  | _ => false

/-- The dynamic type of `token.Claims`. -/
inductive Claims where
  | MapClaims (m : GoString → Option Value)
  | other

/-- Go `jwt.Token`. -/
structure Token where
  Raw : GoString
  Method : SigningMethod
  Header : GoString → Option Value
  Claims : Claims
  Signature : GoString
  Valid : Bool

/-- The errors of the key function of `validateToken`. -/
inductive KeyfuncError where
  /-- "unexpected signing method: %v", with the value of `token.Header["alg"]`. -/
  | unexpectedSigningMethod (alg : Option Value)
  /-- "key ID not found in token header". -/
  | keyIDNotInHeader
  /-- An error of `getPublicKey`, returned as it is. -/
  | key (err : KeyError)

/-- The errors of `jwt.Parse`. -/
inductive ParseError where
  /-- An error of `ParseUnverified` or of decoding the signature segment. -/
  | malformed (detail : GoString)
  /-- "error while executing keyfunc", wrapping the key function's error. -/
  | unverifiable (err : KeyfuncError)
  /-- The method's `Verify` rejected the signature. -/
  | signatureInvalid
  /-- The claims validator rejected the claims. -/
  | invalidClaims

/-- The primitives of the library that `jwt.Parse` is built from. -/
structure jwt.Library where
  /-- The method `ParseUnverified` and the decoding of the signature segment:
  the token (with `Signature` filled in) and the signing string, or an error. -/
  ParseUnverified : GoString → Except GoString (Token × GoString)
  /-- The call `token.Method.Verify(text, token.Signature, key)` returns nil. -/
  Verify : SigningMethod → GoString → GoString → PublicKey → Bool
  /-- The default validator accepts the claims. -/
  Validate : Claims → Bool

/-- Go `jwt.Parse(tokenString, keyFunc)` with the default options: parse, look
up the key with `keyFunc`, verify the signature, validate the claims; the
first failure is returned. -/
def jwt.Parse (lib : jwt.Library) (tokenString : GoString)
    (keyFunc : Token → JWKSCache → Effect (Except KeyfuncError PublicKey))
    (jwksCache : JWKSCache) : Effect (Except ParseError Token) :=
  match lib.ParseUnverified tokenString with
  | .error detail => ⟨.error (.malformed detail), jwksCache, []⟩
  | .ok (token, text) =>
    let got := keyFunc token jwksCache
    match got.value with
    | .error err => ⟨.error (.unverifiable err), got.cache, got.log⟩
    | .ok key =>
      if ¬ lib.Verify token.Method text token.Signature key then
        ⟨.error .signatureInvalid, got.cache, got.log⟩
      else if ¬ lib.Validate token.Claims then
        ⟨.error .invalidClaims, got.cache, got.log⟩
      else ⟨.ok { token with Valid := true }, got.cache, got.log⟩

/-! ## `validateToken`, the middleware and `VerifySession` -/

/-- The key function passed to `jwt.Parse` by `validateToken` (lines 88-107). -/
def keyFunc (env : Env) (token : Token) (jwksCache : JWKSCache) :
    Effect (Except KeyfuncError PublicKey) :=
  if ¬ token.Method.isRSA then
    ⟨.error (.unexpectedSigningMethod (token.Header (lit "alg"))), jwksCache, []⟩
  else
    match token.Header (lit "kid") with
    | some (.string kid) =>
      let got := getPublicKey env jwksCache kid
      match got.value with
      | .error err => ⟨.error (.key err), got.cache, got.log⟩
      | .ok publicKey => ⟨.ok publicKey, got.cache, got.log⟩
    | _ => ⟨.error .keyIDNotInHeader, jwksCache, []⟩

/-- Go `validateToken` (middleware.go, lines 86-108); its invocation is recorded. -/
def validateToken (lib : jwt.Library) (env : Env) (jwksCache : JWKSCache)
    (tokenString : GoString) : Effect (Except ParseError Token) :=
  let parsed := jwt.Parse lib tokenString (keyFunc env) jwksCache
  ⟨parsed.value, parsed.cache, .validateToken tokenString :: parsed.log⟩

/-- The JSON body `gin.H{"error": ...}` of an aborted request. -/
inductive AbortBody where
  | message (error : String)
  | tokenError (err : ParseError)

/-- What the middleware does with the request. -/
inductive Outcome where
  /-- The call `c.AbortWithStatusJSON(status, gin.H{"error": ...})` and return:
  nothing is set in the context and the next handler does not run. -/
  | abort (status : Nat) (body : AbortBody)
  /-- The calls `c.Set("userId", userID)`, `c.Set("claims", claims)`, `c.Next()`. -/
  | next (userId : GoString) (claims : GoString → Option Value)

/-- The handler returned by Go `SupabaseAuthMiddleware` (middleware.go, lines
38-82), applied to a request with the Authorization header `authHeader`. -/
def SupabaseAuthMiddleware (lib : jwt.Library) (env : Env) (jwksCache : JWKSCache)
    (authHeader : GoString) : Effect Outcome :=
  if authHeader = [] then
    ⟨.abort 401 (.message "Authorization header is required"), jwksCache, []⟩
  else if ¬ strings.HasPrefix authHeader (lit "Bearer ") then
    ⟨.abort 401 (.message "Invalid Authorization header format"), jwksCache, []⟩
  else
    let tokenString := strings.TrimPrefix authHeader (lit "Bearer ")
    let validated := validateToken lib env jwksCache tokenString
    match validated.value with
    | .error err => ⟨.abort 401 (.tokenError err), validated.cache, validated.log⟩
    | .ok token =>
      match token.Claims with
      | .other =>
        ⟨.abort 500 (.message "Failed to parse token claims"), validated.cache, validated.log⟩
      | .MapClaims claims =>
        match claims (lit "sub") with
        | some (.string userID) => ⟨.next userID claims, validated.cache, validated.log⟩
        | _ =>
          ⟨.abort 500 (.message "User ID not found in token"), validated.cache, validated.log⟩

/-- The slice expression `s[i:]`: `none` is the run-time panic "slice bounds
out of range". -/
def sliceFrom (s : GoString) (i : Nat) : Option GoString :=
  if i ≤ s.length then some (s.drop i) else none

/-- What `VerifySession` does with the request. -/
inductive Verdict where
  /-- The call `c.JSON(status, gin.H{"authenticated": authenticated})`. -/
  | json (status : Nat) (authenticated : Bool)
  /-- The handler panics before writing a response. -/
  | panics
  deriving DecidableEq, Repr

/-- Go `UserHandler.VerifySession` (handlers.go, lines 39-54). -/
def VerifySession (lib : jwt.Library) (env : Env) (jwksCache : JWKSCache)
    (authHeader : GoString) : Effect Verdict :=
  if authHeader = [] then ⟨.json 401 false, jwksCache, []⟩
  else
    match sliceFrom authHeader 7 with
    | none => ⟨.panics, jwksCache, []⟩
    | some tokenString =>
      let validated := validateToken lib env jwksCache tokenString
      match validated.value with
      | .error _ => ⟨.json 401 false, validated.cache, validated.log⟩
      | .ok _ => ⟨.json 200 true, validated.cache, validated.log⟩

/-! ## Concurrent callers of `getPublicKey`

`jwksCache` is a package variable read and written without any lock, and the
blocking `http.Get` stands between the test of line 119 and the stores of
lines 135-136. A goroutine inside `getPublicKey` is followed through two
atomic steps; goroutines interleave between them. -/

/-- Where one goroutine stands inside `getPublicKey`. -/
inductive Caller where
  /-- The call `getPublicKey(kid)` has been made, nothing has run yet. -/
  | atEntry (env : Env) (kid : GoString)
  /-- The test of line 119 found the cache empty or expired; the fetch of
  line 122 comes next. -/
  | passedCheck (env : Env) (kid : GoString)
  /-- The call has returned. -/
  | returned (result : Except KeyError PublicKey)

/-- The next step of one goroutine on the shared `jwksCache`. From the entry:
lines 113-119, and on a populated unexpired cache the lookup of lines 140-170.
After the test: lines 120-170, the fetch, the stores and the lookup. -/
def Caller.step (caller : Caller) (jwksCache : JWKSCache) : Effect Caller :=
  match caller with
  | .atEntry env kid =>
    if env.SUPABASE_URL = [] then ⟨.returned (.error .envNotSet), jwksCache, []⟩
    else
      match jwksCache.keys with
      | none => ⟨.passedCheck env kid, jwksCache, []⟩
      | some keys =>
        if env.now > jwksCache.expiry then ⟨.passedCheck env kid, jwksCache, []⟩
        else ⟨.returned (findKey kid keys.Keys), jwksCache, []⟩
  | .passedCheck env kid =>
    let refreshed := refreshAndFind env jwksCache kid
    ⟨.returned refreshed.value, refreshed.cache, refreshed.log⟩
  | .returned result => ⟨.returned result, jwksCache, []⟩

/-- One round of the schedule: every goroutine, in order, takes its next step
on the shared cache. -/
def round : List Caller → JWKSCache → Effect (List Caller)
  | [], jwksCache => ⟨[], jwksCache, []⟩
  | caller :: rest, jwksCache =>
    let stepped := caller.step jwksCache
    let others := round rest stepped.cache
    ⟨stepped.value :: others.value, others.cache, stepped.log ++ others.log⟩

/-- The goroutines of the calls `getPublicKey(kid)` made in the environments
`env`, all at their entry. -/
def callersAtEntry (calls : List (Env × GoString)) : List Caller :=
  calls.map fun call => .atEntry call.1 call.2

/-- Two rounds: every goroutine runs the test of line 119 before any goroutine
reaches the stores of lines 135-136, then every goroutine runs to its return. -/
def allCheckThenAllFetch (calls : List (Env × GoString)) (jwksCache : JWKSCache) :
    Effect (List Caller) :=
  let checked := round (callersAtEntry calls) jwksCache
  let finished := round checked.value checked.cache
  ⟨finished.value, finished.cache, checked.log ++ finished.log⟩

/-! ## Specification side -/

/-- The URL-safe base64 alphabet (RFC 4648, table 2): the byte for a 6-bit value. -/
def base64url.alphabet (i : Nat) : Nat :=
  if i < 26 then 65 + i
  else if i < 52 then 97 + (i - 26)
  else if i < 62 then 48 + (i - 52)
  else if i = 62 then 45
  else 95

/-- The unpadded base64url encoding of a byte string (RFC 4648, section 5,
without the trailing `=`), as the specification words it; it is what Go's
`base64.RawURLEncoding.EncodeToString` computes. -/
def base64url.encodeUnpadded : List Nat → GoString
  | [] => []
  | [b0] => [base64url.alphabet (b0 / 4), base64url.alphabet (b0 % 4 * 16)]
  | [b0, b1] =>
    [base64url.alphabet (b0 / 4), base64url.alphabet (b0 % 4 * 16 + b1 / 16),
      base64url.alphabet (b1 % 16 * 4)]
  | b0 :: b1 :: b2 :: rest =>
    base64url.alphabet (b0 / 4) :: base64url.alphabet (b0 % 4 * 16 + b1 / 16) ::
      base64url.alphabet (b1 % 16 * 4 + b2 / 64) :: base64url.alphabet (b2 % 64) ::
      base64url.encodeUnpadded rest

/-- The big-endian unsigned integer value of a byte string, as the
specification words it: the first byte is the most significant. -/
def bigEndianValue : List Nat → Nat
  | [] => 0
  | b :: rest => b * 256 ^ rest.length + bigEndianValue rest

/-- The call `getPublicKey env jwksCache kid` runs its lookup over `keys`: the
environment variable is set, and either the cache holds `keys` and has not
expired, or the cache is empty or expired and the fetch decodes to `keys`. -/
def KeySetInUse (env : Env) (jwksCache : JWKSCache) (keys : JWTKeys) : Prop :=
  env.SUPABASE_URL ≠ [] ∧
    ((jwksCache.keys = some keys ∧ env.now ≤ jwksCache.expiry) ∨
      ((jwksCache.keys = none ∨ env.now > jwksCache.expiry) ∧
        ∃ resp, env.Get (jwksURL env.SUPABASE_URL) = .ok resp ∧ resp.decoded = .ok keys))

/-! ## Sample data, for evaluating the definitions on concrete requests -/

/-- A key-set entry with Kid "abc": modulus bytes `[187]` ("uw"), exponent
bytes `[1, 0, 1]` ("AQAB"). -/
def sampleKey : JWTKey :=
  { Kty := lit "RSA", Kid := lit "abc", Use := lit "sig", N := lit "uw", E := lit "AQAB" }

/-- The key set holding `sampleKey` only. -/
def sampleKeys : JWTKeys := ⟨[sampleKey]⟩

/-- A configured environment whose key-set endpoint answers with `answer`;
the clock reads 1000 at the freshness test and 2000 at the update. -/
def sampleEnv (answer : Except GoString Response) : Env :=
  { SUPABASE_URL := lit "https://example.supabase.co/"
    now := 1000
    Get := fun url =>
      if url = lit "https://example.supabase.co/auth/v1/jwks" then answer
      else .error (lit "no such host")
    nowStore := 2000 }

/-- The cache before the first fetch: the zero value of `jwksCache`. -/
def emptyCache : JWKSCache := ⟨none, 0⟩

/-- A cache that holds `sampleKeys` and expired at instant 500. -/
def expiredCache : JWKSCache := ⟨some sampleKeys, 500⟩

/-- A cache that holds `sampleKeys` and expires at instant 5000. -/
def freshCache : JWKSCache := ⟨some sampleKeys, 5000⟩

/-- The header of the sample tokens: the given alg, and kid "abc". -/
def sampleHeader (alg : GoString) : GoString → Option Value := fun name =>
  if name = lit "alg" then some (.string alg)
  else if name = lit "kid" then some (.string (lit "abc"))
  else none

/-- The claims of the sample tokens: the given "sub" (if any) and nothing else. -/
def sampleClaims (sub : Option Value) : GoString → Option Value := fun name =>
  if name = lit "sub" then sub else none

/-- A parsed sample token. -/
def sampleToken (method : SigningMethod) (alg : GoString) (sub : Option Value) : Token :=
  { Raw := [], Method := method, Header := sampleHeader alg,
    Claims := .MapClaims (sampleClaims sub), Signature := [], Valid := false }

/-- The library on five token strings, each named after its header and
payload; every other string is malformed. Every signature verifies and every
claim set is valid, as for tokens correctly signed and not expired. -/
def sampleLib : jwt.Library :=
  { ParseUnverified := fun tokenString =>
      if tokenString = lit "rs256.user-1" then
        .ok (sampleToken (.RSA (lit "RS256")) (lit "RS256") (some (.string (lit "user-1"))), [])
      else if tokenString = lit "rs256.empty-sub" then
        .ok (sampleToken (.RSA (lit "RS256")) (lit "RS256") (some (.string [])), [])
      else if tokenString = lit "rs256.number-sub" then
        .ok (sampleToken (.RSA (lit "RS256")) (lit "RS256") (some (.number 0)), [])
      else if tokenString = lit "rs256.no-sub" then
        .ok (sampleToken (.RSA (lit "RS256")) (lit "RS256") none, [])
      else if tokenString = lit "none.user-1" then
        .ok (sampleToken .None (lit "none") (some (.string (lit "user-1"))), [])
      else .error (lit "token is malformed")
    Verify := fun _ _ _ _ => true
    Validate := fun _ => true }


/-! ## Lemmas on base64, the exponent loop and the key lookup -/

/-- The two `strings.ReplaceAll` calls of `base64URLDecode`, as one map. -/
theorem toStd_eq (s : GoString) :
    strings.ReplaceAll (strings.ReplaceAll s 45 43) 95 47 =
      s.map fun c => if c = 45 then 43 else if c = 95 then 47 else c := by
  simp only [strings.ReplaceAll, List.map_map]
  apply List.map_congr_left
  intro c _
  simp only [Function.comp]
  split_ifs <;> simp_all

/-- A shift followed by an or with a value below the shifted-in zeros is an addition. -/
theorem shl_or_eq_add (a b i : Nat) (h : b < 2 ^ i) : (a <<< i) ||| b = a * 2 ^ i + b := by
  rw [Nat.shiftLeft_eq, Nat.mul_comm, ← Nat.mul_add_lt_is_or h]

/-- The word assembled by `decodeQuantum` from four 6-bit values. -/
theorem val_eq (d0 d1 d2 d3 : Nat) (h1 : d1 < 64) (h2 : d2 < 64) (h3 : d3 < 64) :
    (d0 <<< 18) ||| (d1 <<< 12) ||| (d2 <<< 6) ||| d3 =
      d0 * 262144 + d1 * 4096 + d2 * 64 + d3 := by
  have e1 : (d0 <<< 18) ||| (d1 <<< 12) = d0 * 262144 + d1 * 4096 := by
    have := shl_or_eq_add d0 (d1 <<< 12) 18 (by rw [Nat.shiftLeft_eq]; omega)
    rw [this, Nat.shiftLeft_eq]; norm_num
  have e2 : (d0 * 262144 + d1 * 4096) ||| (d2 <<< 6) = d0 * 262144 + d1 * 4096 + d2 * 64 := by
    have := shl_or_eq_add (d0 * 64 + d1) (d2 <<< 6) 12 (by rw [Nat.shiftLeft_eq]; omega)
    rw [Nat.shiftLeft_eq, Nat.shiftLeft_eq] at this
    rw [Nat.shiftLeft_eq]
    norm_num at this ⊢
    rw [show d0 * 262144 + d1 * 4096 = (d0 * 64 + d1) * 4096 by ring]
    exact this
  have e3 : (d0 * 262144 + d1 * 4096 + d2 * 64) ||| d3 = d0 * 262144 + d1 * 4096 + d2 * 64 + d3 := by
    have := shl_or_eq_add (d0 * 4096 + d1 * 64 + d2) d3 6 (by omega)
    rw [Nat.shiftLeft_eq] at this
    norm_num at this
    rw [show d0 * 262144 + d1 * 4096 + d2 * 64 = (d0 * 4096 + d1 * 64 + d2) * 64 by ring]
    exact this
  rw [e1, e2, e3]

/-- A full quantum gives back its three bytes. -/
theorem assemble_four (b0 b1 b2 : Nat) (h0 : b0 < 256) (h1 : b1 < 256) (h2 : b2 < 256) :
    base64.assemble [b0 / 4, b0 % 4 * 16 + b1 / 16, b1 % 16 * 4 + b2 / 64, b2 % 64] =
      [b0, b1, b2] := by
  simp only [base64.assemble, List.getD_cons_zero, List.getD_cons_succ, List.length_cons,
    List.length_nil]
  rw [val_eq _ _ _ _ (by omega) (by omega) (by omega)]
  simp only [Nat.shiftRight_eq_div_pow]
  norm_num
  refine ⟨?_, ?_, ?_⟩ <;> omega

/-- A quantum of three 6-bit values gives back its two bytes. -/
theorem assemble_three (b0 b1 : Nat) (h0 : b0 < 256) (h1 : b1 < 256) :
    base64.assemble [b0 / 4, b0 % 4 * 16 + b1 / 16, b1 % 16 * 4] = [b0, b1] := by
  simp only [base64.assemble, List.getD_cons_zero, List.getD_cons_succ, List.length_cons,
    List.length_nil, List.getD_nil]
  rw [val_eq _ _ _ _ (by omega) (by omega) (by omega)]
  simp only [Nat.shiftRight_eq_div_pow]
  norm_num
  refine ⟨?_, ?_⟩ <;> omega

/-- A quantum of two 6-bit values gives back its byte. -/
theorem assemble_two (b0 : Nat) (h0 : b0 < 256) :
    base64.assemble [b0 / 4, b0 % 4 * 16] = [b0] := by
  simp only [base64.assemble, List.getD_cons_zero, List.getD_cons_succ, List.length_cons,
    List.length_nil, List.getD_nil]
  rw [val_eq _ _ _ _ (by omega) (by omega) (by omega)]
  simp only [Nat.shiftRight_eq_div_pow]
  norm_num
  omega

/-- Every byte of the URL-safe alphabet, once `-` and `_` are replaced, is
mapped back to its 6-bit value by the decode map of the standard alphabet. -/
theorem decodeMap_alphabet : ∀ i, i < 64 →
    base64.decodeMap (if base64url.alphabet i = 45 then 43
      else if base64url.alphabet i = 95 then 47 else base64url.alphabet i) = i := by
  decide

/-- The string handed to `DecodeString` by `base64URLDecode`. -/
theorem base64URLDecode_eq (str : GoString) :
    base64URLDecode str =
      base64.decodeLoop
        ((if 4 - str.length % 4 < 4 then str ++ List.replicate (4 - str.length % 4) 61
          else str).map fun c => if c = 45 then 43 else if c = 95 then 47 else c) [] := by
  simp only [base64URLDecode, toStd_eq, base64.StdEncoding.DecodeString, strings.Repeat]

/-- The decode loop on an alphabet byte that does not complete a quantum. -/
theorem decodeLoop_digit (c : Nat) (rest dbuf : List Nat) (h : base64.decodeMap c ≠ 255)
    (hl : dbuf.length ≠ 3) :
    base64.decodeLoop (c :: rest) dbuf = base64.decodeLoop rest (dbuf ++ [base64.decodeMap c]) := by
  simp [base64.decodeLoop, h, hl]

/-- The decode loop on the alphabet byte that completes a quantum. -/
theorem decodeLoop_fourth (c : Nat) (rest dbuf : List Nat) (h : base64.decodeMap c ≠ 255)
    (hl : dbuf.length = 3) :
    base64.decodeLoop (c :: rest) dbuf =
      (base64.decodeLoop rest []).map fun out =>
        base64.assemble (dbuf ++ [base64.decodeMap c]) ++ out := by
  simp [base64.decodeLoop, h, hl]

/-- `base64URLDecode` on four alphabet bytes followed by `s`. -/
theorem base64URLDecode_quantum (c0 c1 c2 c3 : Nat) (s : GoString) (d0 d1 d2 d3 : Nat)
    (h0 : base64.decodeMap (if c0 = 45 then 43 else if c0 = 95 then 47 else c0) = d0)
    (h1 : base64.decodeMap (if c1 = 45 then 43 else if c1 = 95 then 47 else c1) = d1)
    (h2 : base64.decodeMap (if c2 = 45 then 43 else if c2 = 95 then 47 else c2) = d2)
    (h3 : base64.decodeMap (if c3 = 45 then 43 else if c3 = 95 then 47 else c3) = d3)
    (n0 : d0 ≠ 255) (n1 : d1 ≠ 255) (n2 : d2 ≠ 255) (n3 : d3 ≠ 255) :
    base64URLDecode (c0 :: c1 :: c2 :: c3 :: s) =
      (base64URLDecode s).map fun out => base64.assemble [d0, d1, d2, d3] ++ out := by
  subst h0 h1 h2 h3
  rw [base64URLDecode_eq, base64URLDecode_eq]
  have hlen : (c0 :: c1 :: c2 :: c3 :: s).length % 4 = s.length % 4 := by
    simp only [List.length_cons]; omega
  rw [hlen]
  by_cases hp : 4 - s.length % 4 < 4
  · rw [if_pos hp, if_pos hp]
    simp only [List.cons_append, List.map_cons]
    rw [decodeLoop_digit _ _ _ n0 (by simp), decodeLoop_digit _ _ _ n1 (by simp),
      decodeLoop_digit _ _ _ n2 (by simp), decodeLoop_fourth _ _ _ n3 (by simp)]
    rfl
  · rw [if_neg hp, if_neg hp]
    simp only [List.map_cons]
    rw [decodeLoop_digit _ _ _ n0 (by simp), decodeLoop_digit _ _ _ n1 (by simp),
      decodeLoop_digit _ _ _ n2 (by simp), decodeLoop_fourth _ _ _ n3 (by simp)]
    rfl

/-- `base64URLDecode` on two alphabet bytes: two `=` are appended. -/
theorem base64URLDecode_two (c0 c1 : Nat) (d0 d1 : Nat)
    (h0 : base64.decodeMap (if c0 = 45 then 43 else if c0 = 95 then 47 else c0) = d0)
    (h1 : base64.decodeMap (if c1 = 45 then 43 else if c1 = 95 then 47 else c1) = d1)
    (n0 : d0 ≠ 255) (n1 : d1 ≠ 255) :
    base64URLDecode [c0, c1] = some (base64.assemble [d0, d1]) := by
  subst h0 h1
  rw [base64URLDecode_eq]
  simp only [List.length_cons, List.length_nil]
  norm_num
  rw [decodeLoop_digit _ _ _ n0 (by simp), decodeLoop_digit _ _ _ n1 (by simp)]
  simp [base64.decodeLoop, base64.decodeMap, base64.skipNewlines]

/-- `base64URLDecode` on three alphabet bytes: one `=` is appended. -/
theorem base64URLDecode_three (c0 c1 c2 : Nat) (d0 d1 d2 : Nat)
    (h0 : base64.decodeMap (if c0 = 45 then 43 else if c0 = 95 then 47 else c0) = d0)
    (h1 : base64.decodeMap (if c1 = 45 then 43 else if c1 = 95 then 47 else c1) = d1)
    (h2 : base64.decodeMap (if c2 = 45 then 43 else if c2 = 95 then 47 else c2) = d2)
    (n0 : d0 ≠ 255) (n1 : d1 ≠ 255) (n2 : d2 ≠ 255) :
    base64URLDecode [c0, c1, c2] = some (base64.assemble [d0, d1, d2]) := by
  subst h0 h1 h2
  rw [base64URLDecode_eq]
  simp only [List.length_cons, List.length_nil]
  norm_num
  rw [decodeLoop_digit _ _ _ n0 (by simp), decodeLoop_digit _ _ _ n1 (by simp),
    decodeLoop_digit _ _ _ n2 (by simp)]
  simp [base64.decodeLoop, base64.decodeMap, base64.skipNewlines]

/-- Roundtrip: `base64URLDecode` inverts unpadded base64url encoding, for every
byte string of every length. -/
theorem base64URLDecode_encodeUnpadded (bs : List Nat) (h : ∀ b ∈ bs, b < 256) :
    base64URLDecode (base64url.encodeUnpadded bs) = some bs := by
  induction bs using base64url.encodeUnpadded.induct with
  | case1 => rfl
  | case2 b0 =>
    have hb0 : b0 < 256 := h b0 (by simp)
    rw [base64url.encodeUnpadded,
      base64URLDecode_two _ _ _ _ (decodeMap_alphabet _ (by omega))
        (decodeMap_alphabet _ (by omega)) (by omega) (by omega),
      assemble_two b0 hb0]
  | case3 b0 b1 =>
    have hb0 : b0 < 256 := h b0 (by simp)
    have hb1 : b1 < 256 := h b1 (by simp)
    rw [base64url.encodeUnpadded,
      base64URLDecode_three _ _ _ _ _ _ (decodeMap_alphabet _ (by omega))
        (decodeMap_alphabet _ (by omega)) (decodeMap_alphabet _ (by omega))
        (by omega) (by omega) (by omega),
      assemble_three b0 b1 hb0 hb1]
  | case4 b0 b1 b2 rest ih =>
    have hb0 : b0 < 256 := h b0 (by simp)
    have hb1 : b1 < 256 := h b1 (by simp)
    have hb2 : b2 < 256 := h b2 (by simp)
    have hrest : ∀ b ∈ rest, b < 256 := fun b hb => h b (by simp [hb])
    rw [base64url.encodeUnpadded,
      base64URLDecode_quantum _ _ _ _ _ _ _ _ _ (decodeMap_alphabet _ (by omega))
        (decodeMap_alphabet _ (by omega)) (decodeMap_alphabet _ (by omega))
        (decodeMap_alphabet _ (by omega)) (by omega) (by omega) (by omega) (by omega),
      ih hrest, assemble_four b0 b1 b2 hb0 hb1 hb2]
    rfl

/-- The accumulation of `SetBytes` computes the big-endian value. -/
theorem foldl_bigEndian (bs : List Nat) (acc : Nat) :
    bs.foldl (fun acc b => acc * 256 + b) acc = acc * 256 ^ bs.length + bigEndianValue bs := by
  induction bs generalizing acc with
  | nil => simp [bigEndianValue]
  | cons b rest ih =>
    simp only [List.foldl_cons, ih, bigEndianValue, List.length_cons]
    ring

/-- `SetBytes` is the big-endian value. -/
theorem SetBytes_eq (bs : List Nat) : big.SetBytes bs = (bigEndianValue bs : Int) := by
  simp [big.SetBytes, foldl_bigEndian]

/-- The shift-or loop computes the big-endian value as long as it fits 64 bits. -/
theorem shiftOr_bigEndian (e : List Nat) (eInt : Nat) (hb : ∀ b ∈ e, b < 256)
    (hfit : eInt * 256 ^ e.length + bigEndianValue e < 2 ^ 64) :
    shiftOr eInt e = eInt * 256 ^ e.length + bigEndianValue e := by
  induction e generalizing eInt with
  | nil => simp [shiftOr, bigEndianValue]
  | cons b rest ih =>
    have hb0 : b < 256 := hb b (by simp)
    have hrest : ∀ x ∈ rest, x < 256 := fun x hx => hb x (by simp [hx])
    have hpos : 0 < 256 ^ rest.length := by positivity
    have hsum : (eInt * 256 + b) * 256 ^ rest.length + bigEndianValue rest =
        eInt * 256 ^ (b :: rest).length + bigEndianValue (b :: rest) := by
      simp only [bigEndianValue, List.length_cons]; ring
    have hstep : ((eInt <<< 8) ||| b) % 2 ^ 64 = eInt * 256 + b := by
      rw [shl_or_eq_add eInt b 8 (by norm_num; exact hb0)]
      apply Nat.mod_eq_of_lt
      have hle : eInt * 256 + b ≤ (eInt * 256 + b) * 256 ^ rest.length :=
        Nat.le_mul_of_pos_right _ hpos
      rw [← hsum] at hfit
      omega
    have hunfold : shiftOr eInt (b :: rest) = shiftOr (((eInt <<< 8) ||| b) % 2 ^ 64) rest := by
      simp [shiftOr]
    rw [hunfold, hstep, ih (eInt * 256 + b) hrest (by rw [hsum]; exact hfit), hsum]

/-- A pattern below `2^63` is a non-negative `int`. -/
theorem int64_of_lt (v : Nat) (h : v < 2 ^ 63) : int64 v = (v : Int) := by
  have h64 : v % 2 ^ 64 = v := Nat.mod_eq_of_lt (by norm_num at h ⊢; omega)
  simp only [int64, h64, if_pos h]

/-- The lookup parses the first entry whose Kid equals `kid`. -/
theorem findKey_of_find (kid : GoString) (keys : List JWTKey) (key : JWTKey)
    (h : keys.find? (fun k => decide (k.Kid = kid)) = some key) :
    findKey kid keys = parseKey key := by
  induction keys with
  | nil => simp at h
  | cons k rest ih =>
    by_cases hk : k.Kid = kid
    · simp only [List.find?_cons, hk, decide_True, Option.some.injEq] at h
      simp [findKey, hk, ← h]
    · simp only [List.find?_cons, hk, decide_False] at h
      simp [findKey, hk, ih h]

/-- The lookup fails when no entry has the Kid `kid`. -/
theorem findKey_of_no_match (kid : GoString) (keys : List JWTKey)
    (h : ∀ key ∈ keys, key.Kid ≠ kid) : findKey kid keys = .error (.keyIDNotFound kid) := by
  induction keys with
  | nil => rfl
  | cons k rest ih =>
    have hk : k.Kid ≠ kid := h k (by simp)
    simp only [findKey, hk, if_false]
    exact ih fun key hkey => h key (by simp [hkey])

/-- With a populated, unexpired cache `getPublicKey` only looks up. -/
theorem getPublicKey_fresh (env : Env) (c : JWKSCache) (kid : GoString) (keys : JWTKeys)
    (hurl : env.SUPABASE_URL ≠ []) (hkeys : c.keys = some keys) (hnow : env.now ≤ c.expiry) :
    getPublicKey env c kid = ⟨findKey kid keys.Keys, c, []⟩ := by
  simp only [getPublicKey, if_neg hurl, hkeys, gt_iff_lt, not_lt.mpr hnow, if_false]

/-- With an empty or expired cache `getPublicKey` refreshes. -/
theorem getPublicKey_stale (env : Env) (c : JWKSCache) (kid : GoString)
    (hurl : env.SUPABASE_URL ≠ []) (hstale : c.keys = none ∨ env.now > c.expiry) :
    getPublicKey env c kid = refreshAndFind env c kid := by
  simp only [getPublicKey, if_neg hurl]
  cases hk : c.keys with
  | none => rfl
  | some keys =>
    rcases hstale with h | h
    · simp [hk] at h
    · simp only [h, if_true]

/-- The value of `getPublicKey` is the lookup in the key set in use. -/
theorem getPublicKey_value_of_inUse (env : Env) (c : JWKSCache) (kid : GoString) (keys : JWTKeys)
    (h : KeySetInUse env c keys) : (getPublicKey env c kid).value = findKey kid keys.Keys := by
  obtain ⟨hurl, ⟨hkeys, hnow⟩ | ⟨hstale, resp, hget, hdec⟩⟩ := h
  · rw [getPublicKey_fresh env c kid keys hurl hkeys hnow]
  · rw [getPublicKey_stale env c kid hurl hstale]
    simp only [refreshAndFind, hget, hdec]

/-- The refresh branch always makes exactly one request. -/
theorem refreshAndFind_log (env : Env) (jwksCache : JWKSCache) (kid : GoString) :
    (refreshAndFind env jwksCache kid).log = [.httpGet (jwksURL env.SUPABASE_URL)] := by
  simp only [refreshAndFind]
  split
  · rfl
  · split <;> rfl

/-- A goroutine that runs alone, its two steps one after the other, does what
`getPublicKey` does. -/
theorem steps_alone_eq_getPublicKey (env : Env) (jwksCache : JWKSCache) (kid : GoString) :
    allCheckThenAllFetch [(env, kid)] jwksCache =
      ⟨[.returned (getPublicKey env jwksCache kid).value],
        (getPublicKey env jwksCache kid).cache, (getPublicKey env jwksCache kid).log⟩ := by
  simp only [allCheckThenAllFetch, callersAtEntry, List.map_cons, List.map_nil, round,
    Caller.step, getPublicKey, List.append_nil, List.nil_append]
  by_cases hurl : env.SUPABASE_URL = []
  · simp [hurl, Caller.step]
  · simp only [if_neg hurl]
    cases hk : jwksCache.keys with
    | none => simp [Caller.step]
    | some keys =>
      by_cases hexp : env.now > jwksCache.expiry
      · simp [hexp, Caller.step]
      · simp [hexp, Caller.step]

/-- The first round on a cache that is stale for every caller: every test
passes, nothing is fetched and the cache is untouched. -/
theorem round_check_stale (calls : List (Env × GoString)) (jwksCache : JWKSCache)
    (hstale : ∀ call ∈ calls, call.1.SUPABASE_URL ≠ [] ∧
      (jwksCache.keys = none ∨ call.1.now > jwksCache.expiry)) :
    round (callersAtEntry calls) jwksCache =
      ⟨calls.map fun call => .passedCheck call.1 call.2, jwksCache, []⟩ := by
  induction calls with
  | nil => rfl
  | cons call rest ih =>
    obtain ⟨hurl, hs⟩ := hstale call (by simp)
    have hstep : (Caller.atEntry call.1 call.2).step jwksCache =
        ⟨.passedCheck call.1 call.2, jwksCache, []⟩ := by
      simp only [Caller.step, if_neg hurl]
      cases hk : jwksCache.keys with
      | none => rfl
      | some keys =>
        rcases hs with h | h
        · simp [hk] at h
        · simp only [h, if_true]
    have ih2 := ih fun c hc => hstale c (by simp [hc])
    simp only [callersAtEntry] at ih2
    simp only [callersAtEntry, List.map_cons, round, hstep, ih2, List.append_nil]

/-- The second round: every caller that passed the test makes its own request. -/
theorem round_fetch_log (calls : List (Env × GoString)) (jwksCache : JWKSCache) :
    (round (calls.map fun call => .passedCheck call.1 call.2) jwksCache).log =
      calls.map fun call => .httpGet (jwksURL call.1.SUPABASE_URL) := by
  induction calls generalizing jwksCache with
  | nil => rfl
  | cons call rest ih =>
    simp only [List.map_cons, round, Caller.step, refreshAndFind_log, ih, List.cons_append,
      List.nil_append]

/-! ## The claims -/

/-- C1: for every token whose signing method is not a `*jwt.SigningMethodRSA`
(alg "none" included), the key function of `validateToken` returns the
"unexpected signing method" error without reading the kid and without touching
the key cache or the network; `validateToken` then fails with that error,
whatever the signature and whatever the verifier would say, and no key reaches
the verifier. -/
theorem keyFunc_rejects_non_RSA (lib : jwt.Library) (env : Env) (jwksCache : JWKSCache)
    (tokenString : GoString) (token : Token) (text : GoString)
    (hparse : lib.ParseUnverified tokenString = .ok (token, text))
    (hmethod : token.Method.isRSA = false) :
    keyFunc env token jwksCache =
        ⟨.error (.unexpectedSigningMethod (token.Header (lit "alg"))), jwksCache, []⟩ ∧
      validateToken lib env jwksCache tokenString =
        ⟨.error (.unverifiable (.unexpectedSigningMethod (token.Header (lit "alg")))),
          jwksCache, [.validateToken tokenString]⟩ := by
  have hkey : keyFunc env token jwksCache =
      ⟨.error (.unexpectedSigningMethod (token.Header (lit "alg"))), jwksCache, []⟩ := by
    simp [keyFunc, hmethod]
  refine ⟨hkey, ?_⟩
  simp only [validateToken, jwt.Parse, hparse, hkey]

/-- C1 at the sample token of alg "none", against a fresh cache. -/
theorem keyFunc_rejects_non_RSA_witness :
    validateToken sampleLib (sampleEnv (.error [])) freshCache (lit "none.user-1") =
      ⟨.error (.unverifiable (.unexpectedSigningMethod (some (.string (lit "none"))))),
        freshCache, [.validateToken (lit "none.user-1")]⟩ :=
  (keyFunc_rejects_non_RSA sampleLib (sampleEnv (.error [])) freshCache (lit "none.user-1")
    (sampleToken .None (lit "none") (some (.string (lit "user-1")))) [] rfl rfl).2

/-- C2: for every Authorization header that does not begin with the bytes of
"Bearer " the middleware aborts with status 401, with the message
"Authorization header is required" when the header is empty and "Invalid
Authorization header format" otherwise; `validateToken` is not invoked, nothing
is fetched, the cache is untouched, no userId is set and the next handler does
not run. -/
theorem middleware_rejects_header (lib : jwt.Library) (env : Env) (jwksCache : JWKSCache)
    (authHeader : GoString) (h : strings.HasPrefix authHeader (lit "Bearer ") = false) :
    SupabaseAuthMiddleware lib env jwksCache authHeader =
      ⟨.abort 401 (.message (if authHeader = [] then "Authorization header is required"
          else "Invalid Authorization header format")), jwksCache, []⟩ := by
  by_cases he : authHeader = []
  · simp [SupabaseAuthMiddleware, he]
  · simp [SupabaseAuthMiddleware, he, h]

/-- C2 at the empty header, at "Bearer" without the space, and at "bearer x". -/
theorem middleware_rejects_header_witness :
    SupabaseAuthMiddleware sampleLib (sampleEnv (.error [])) freshCache [] =
        ⟨.abort 401 (.message "Authorization header is required"), freshCache, []⟩ ∧
      SupabaseAuthMiddleware sampleLib (sampleEnv (.error [])) freshCache (lit "Bearer") =
        ⟨.abort 401 (.message "Invalid Authorization header format"), freshCache, []⟩ ∧
      SupabaseAuthMiddleware sampleLib (sampleEnv (.error [])) freshCache (lit "bearer x") =
        ⟨.abort 401 (.message "Invalid Authorization header format"), freshCache, []⟩ :=
  ⟨middleware_rejects_header sampleLib (sampleEnv (.error [])) freshCache [] (by decide),
    middleware_rejects_header sampleLib (sampleEnv (.error [])) freshCache (lit "Bearer")
      (by decide),
    middleware_rejects_header sampleLib (sampleEnv (.error [])) freshCache (lit "bearer x")
      (by decide)⟩

/-- C3: when the key set in use has no entry whose Kid equals `kid`,
`getPublicKey` returns the "key ID not found" error and no key; with a
populated, unexpired cache it does so without a fetch and without changing the
cache. -/
theorem getPublicKey_unknown_kid (env : Env) (jwksCache : JWKSCache) (kid : GoString)
    (keys : JWTKeys) (huse : KeySetInUse env jwksCache keys)
    (hkid : ∀ key ∈ keys.Keys, key.Kid ≠ kid) :
    (getPublicKey env jwksCache kid).value = .error (.keyIDNotFound kid) ∧
      (jwksCache.keys ≠ none → env.now ≤ jwksCache.expiry →
        (getPublicKey env jwksCache kid).log = [] ∧
          (getPublicKey env jwksCache kid).cache = jwksCache) := by
  refine ⟨?_, ?_⟩
  · rw [getPublicKey_value_of_inUse env jwksCache kid keys huse]
    exact findKey_of_no_match kid keys.Keys hkid
  · intro hpop hnow
    cases hk : jwksCache.keys with
    | none => exact absurd hk hpop
    | some cached =>
      rw [getPublicKey_fresh env jwksCache kid cached huse.1 hk hnow]
      exact ⟨rfl, rfl⟩

/-- C3 at the fresh sample cache and the kid "abd", with an endpoint that would fail. -/
theorem getPublicKey_unknown_kid_witness :
    (getPublicKey (sampleEnv (.error [])) freshCache (lit "abd")).value =
        .error (.keyIDNotFound (lit "abd")) ∧
      (getPublicKey (sampleEnv (.error [])) freshCache (lit "abd")).log = [] ∧
      (getPublicKey (sampleEnv (.error [])) freshCache (lit "abd")).cache = freshCache :=
  have h := getPublicKey_unknown_kid (sampleEnv (.error [])) freshCache (lit "abd") sampleKeys
    ⟨by decide, Or.inl ⟨rfl, by decide⟩⟩ (by decide)
  ⟨h.1, h.2 (by decide) (by decide)⟩

/-- C4: a successful fetch stores the fetched key set with expiry 24 hours
after the instant of the update; every later call at an instant inside that
window, for any kid and in any environment, fetches nothing and leaves the key
set and its expiry as they were, so the two calls perform one fetch in total. -/
theorem cache_ttl_window (env : Env) (jwksCache : JWKSCache) (kid : GoString)
    (resp : Response) (keys : JWTKeys)
    (hurl : env.SUPABASE_URL ≠ [])
    (hstale : jwksCache.keys = none ∨ env.now > jwksCache.expiry)
    (hget : env.Get (jwksURL env.SUPABASE_URL) = .ok resp)
    (hdec : resp.decoded = .ok keys) :
    (getPublicKey env jwksCache kid).cache =
        ⟨some keys, env.nowStore + 24 * 3600000000000⟩ ∧
      (getPublicKey env jwksCache kid).log = [.httpGet (jwksURL env.SUPABASE_URL)] ∧
      ∀ (later : Env) (kid2 : GoString),
        env.nowStore ≤ later.now → later.now < env.nowStore + 24 * 3600000000000 →
          (getPublicKey later (getPublicKey env jwksCache kid).cache kid2).log = [] ∧
          (getPublicKey later (getPublicKey env jwksCache kid).cache kid2).cache =
            (getPublicKey env jwksCache kid).cache ∧
          (getPublicKey env jwksCache kid).log ++
            (getPublicKey later (getPublicKey env jwksCache kid).cache kid2).log =
              [.httpGet (jwksURL env.SUPABASE_URL)] := by
  have hfirst : getPublicKey env jwksCache kid =
      ⟨findKey kid keys.Keys, ⟨some keys, env.nowStore + 24 * 3600000000000⟩,
        [.httpGet (jwksURL env.SUPABASE_URL)]⟩ := by
    rw [getPublicKey_stale env jwksCache kid hurl hstale]
    simp only [refreshAndFind, hget, hdec, ttl]
  rw [hfirst]
  refine ⟨rfl, rfl, ?_⟩
  intro later kid2 _ hlt
  have hsecond : (getPublicKey later ⟨some keys, env.nowStore + 24 * 3600000000000⟩ kid2).log = [] ∧
      (getPublicKey later ⟨some keys, env.nowStore + 24 * 3600000000000⟩ kid2).cache =
        ⟨some keys, env.nowStore + 24 * 3600000000000⟩ := by
    by_cases hu : later.SUPABASE_URL = []
    · simp [getPublicKey, hu]
    · rw [getPublicKey_fresh later _ kid2 keys hu rfl (le_of_lt hlt)]
      exact ⟨rfl, rfl⟩
  refine ⟨hsecond.1, hsecond.2, ?_⟩
  simp only [hsecond.1, List.append_nil]

/-- C4 at the empty cache: a fetch at instant 2000, then a call at 3000 for
another kid. -/
theorem cache_ttl_window_witness :
    (getPublicKey (sampleEnv (.ok ⟨200, .ok sampleKeys⟩)) emptyCache (lit "abc")).cache =
        ⟨some sampleKeys, 2000 + 24 * 3600000000000⟩ ∧
      (getPublicKey { sampleEnv (.error []) with now := 3000 }
        (getPublicKey (sampleEnv (.ok ⟨200, .ok sampleKeys⟩)) emptyCache (lit "abc")).cache
        (lit "abd")).log = [] :=
  have h := cache_ttl_window (sampleEnv (.ok ⟨200, .ok sampleKeys⟩)) emptyCache (lit "abc")
    ⟨200, .ok sampleKeys⟩ sampleKeys (by decide) (Or.inl rfl) rfl rfl
  ⟨h.1, (h.2.2 { sampleEnv (.error []) with now := 3000 } (lit "abd") (by decide)
    (by decide)).1⟩

/-- C5: when a call attempts a refresh (the cache is empty or expired) and the
fetch fails at transport level or the body fails to decode, the call returns
the fetch or decode error and the cache after the call is the cache before it. -/
theorem failed_refresh_keeps_cache (env : Env) (jwksCache : JWKSCache) (kid : GoString)
    (hurl : env.SUPABASE_URL ≠ [])
    (hstale : jwksCache.keys = none ∨ env.now > jwksCache.expiry)
    (hfail : (∃ err, env.Get (jwksURL env.SUPABASE_URL) = .error err) ∨
      ∃ resp err, env.Get (jwksURL env.SUPABASE_URL) = .ok resp ∧ resp.decoded = .error err) :
    ((∃ err, (getPublicKey env jwksCache kid).value = .error (.fetchingJWKS err)) ∨
        ∃ err, (getPublicKey env jwksCache kid).value = .error (.decodingJWKS err)) ∧
      (getPublicKey env jwksCache kid).cache = jwksCache ∧
      (getPublicKey env jwksCache kid).log = [.httpGet (jwksURL env.SUPABASE_URL)] := by
  rw [getPublicKey_stale env jwksCache kid hurl hstale]
  rcases hfail with ⟨err, hget⟩ | ⟨resp, err, hget, hdec⟩
  · have h : refreshAndFind env jwksCache kid =
        ⟨.error (.fetchingJWKS err), jwksCache, [.httpGet (jwksURL env.SUPABASE_URL)]⟩ := by
      simp only [refreshAndFind, hget]
    rw [h]
    exact ⟨Or.inl ⟨err, rfl⟩, rfl, rfl⟩
  · have h : refreshAndFind env jwksCache kid =
        ⟨.error (.decodingJWKS err), jwksCache, [.httpGet (jwksURL env.SUPABASE_URL)]⟩ := by
      simp only [refreshAndFind, hget, hdec]
    rw [h]
    exact ⟨Or.inr ⟨err, rfl⟩, rfl, rfl⟩

/-- C5 at the expired sample cache with a transport error, and at the empty
cache with an undecodable body. -/
theorem failed_refresh_keeps_cache_witness :
    (getPublicKey (sampleEnv (.error (lit "timeout"))) expiredCache (lit "abc")).cache =
        expiredCache ∧
      (getPublicKey (sampleEnv (.ok ⟨200, .error (lit "unexpected EOF")⟩)) emptyCache
        (lit "abc")).cache = emptyCache :=
  ⟨(failed_refresh_keeps_cache (sampleEnv (.error (lit "timeout"))) expiredCache (lit "abc")
      (by decide) (Or.inr (by decide)) (Or.inl ⟨lit "timeout", rfl⟩)).2.1,
    (failed_refresh_keeps_cache (sampleEnv (.ok ⟨200, .error (lit "unexpected EOF")⟩))
      emptyCache (lit "abc") (by decide) (Or.inl rfl)
      (Or.inr ⟨⟨200, .error (lit "unexpected EOF")⟩, lit "unexpected EOF", rfl, rfl⟩)).2.1⟩

/-- C6: the status of the response is never examined. For every call the
result, the cache and the log are what they would be had every response
carried status 200. At a failing input: the cache holds `sampleKeys` and has
expired, the endpoint answers with status 500 and a body that decodes without
error to a key set with no keys; the stored key set is replaced by the empty
one with a fresh expiry, and the call reports "key ID not found", not a fetch
error. -/
theorem getPublicKey_ignores_status (env : Env) (jwksCache : JWKSCache) (kid : GoString) :
    getPublicKey env jwksCache kid =
        getPublicKey
          { env with Get := fun url =>
              match env.Get url with
              | .error err => .error err
              | .ok resp => .ok ⟨200, resp.decoded⟩ }
          jwksCache kid ∧
      (getPublicKey (sampleEnv (.ok ⟨500, .ok ⟨[]⟩⟩)) expiredCache (lit "abc")).value =
        .error (.keyIDNotFound (lit "abc")) ∧
      (getPublicKey (sampleEnv (.ok ⟨500, .ok ⟨[]⟩⟩)) expiredCache (lit "abc")).cache =
        ⟨some ⟨[]⟩, 2000 + 24 * 3600000000000⟩ := by
  have hr : ∀ c : JWKSCache, refreshAndFind env c kid =
      refreshAndFind
        { env with Get := fun url =>
            match env.Get url with
            | .error err => .error err
            | .ok resp => .ok ⟨200, resp.decoded⟩ } c kid := by
    intro c
    simp only [refreshAndFind]
    cases env.Get (jwksURL env.SUPABASE_URL) with
    | error err => rfl
    | ok resp => rfl
  refine ⟨?_, rfl, by decide⟩
  simp only [getPublicKey, hr]

/-- C7: when the first entry of the key set in use whose Kid equals `kid`
carries as `n` and `e` the unpadded base64url encodings of the byte strings
`modulus` and `exponent`, and the big-endian value of `exponent` is below
`2^63`, then `base64URLDecode` gives back both byte strings and `getPublicKey`
returns the key whose modulus and exponent are their big-endian values. -/
theorem getPublicKey_reconstructs_key (env : Env) (jwksCache : JWKSCache) (kid : GoString)
    (keys : JWTKeys) (key : JWTKey) (modulus exponent : List Nat)
    (huse : KeySetInUse env jwksCache keys)
    (hfirst : keys.Keys.find? (fun k => decide (k.Kid = kid)) = some key)
    (hmod : ∀ b ∈ modulus, b < 256) (hexp : ∀ b ∈ exponent, b < 256)
    (hfit : bigEndianValue exponent < 2 ^ 63)
    (hn : key.N = base64url.encodeUnpadded modulus)
    (he : key.E = base64url.encodeUnpadded exponent) :
    base64URLDecode key.N = some modulus ∧ base64URLDecode key.E = some exponent ∧
      (getPublicKey env jwksCache kid).value =
        .ok ⟨(bigEndianValue modulus : Int), (bigEndianValue exponent : Int)⟩ := by
  have hN : base64URLDecode key.N = some modulus := by
    rw [hn]; exact base64URLDecode_encodeUnpadded modulus hmod
  have hE : base64URLDecode key.E = some exponent := by
    rw [he]; exact base64URLDecode_encodeUnpadded exponent hexp
  refine ⟨hN, hE, ?_⟩
  rw [getPublicKey_value_of_inUse env jwksCache kid keys huse,
    findKey_of_find kid keys.Keys key hfirst]
  have hloop : shiftOr 0 exponent = bigEndianValue exponent := by
    have h := shiftOr_bigEndian exponent 0 hexp (by
      rw [Nat.zero_mul, Nat.zero_add]
      exact lt_trans hfit (by norm_num))
    rw [h, Nat.zero_mul, Nat.zero_add]
  simp only [parseKey, hN, hE, SetBytes_eq, hloop, int64_of_lt _ hfit]

/-- C7 at the sample key: `n = "uw"` encodes the byte 187 and `e = "AQAB"` the
bytes 1, 0, 1, whose value is 65537. -/
theorem getPublicKey_reconstructs_key_witness :
    (getPublicKey (sampleEnv (.ok ⟨200, .ok sampleKeys⟩)) emptyCache (lit "abc")).value =
      .ok ⟨187, 65537⟩ :=
  (getPublicKey_reconstructs_key (sampleEnv (.ok ⟨200, .ok sampleKeys⟩)) emptyCache (lit "abc")
    sampleKeys sampleKey [187] [1, 0, 1]
    ⟨by decide, Or.inr ⟨Or.inl rfl, ⟨200, .ok sampleKeys⟩, rfl, rfl⟩⟩
    (by decide) (by decide) (by decide) (by decide) (by decide) (by decide)).2.2

/-- C8, counterexample: the sample token whose "sub" is the empty string passes
`validateToken`, and the middleware sets the empty userId and runs the next
handler. -/
theorem middleware_accepts_empty_sub :
    (validateToken sampleLib (sampleEnv (.error [])) freshCache (lit "rs256.empty-sub")).value =
        .ok { sampleToken (.RSA (lit "RS256")) (lit "RS256") (some (.string [])) with
          Valid := true } ∧
      (SupabaseAuthMiddleware sampleLib (sampleEnv (.error [])) freshCache
        (lit "Bearer rs256.empty-sub")).value = .next [] (sampleClaims (some (.string []))) :=
  ⟨rfl, rfl⟩

/-- C8, amended: for every request whose token passes `validateToken` with a
claim map, the middleware sets userId and runs the next handler exactly when
"sub" is a string, the empty string included: the userId is that string and
the claim map is attached unchanged. When "sub" is absent or is not a string it
aborts with status 500 and "User ID not found in token": no userId is set and
the next handler does not run. -/
theorem middleware_subject (lib : jwt.Library) (env : Env) (jwksCache : JWKSCache)
    (authHeader : GoString) (token : Token) (claims : GoString → Option Value)
    (hpre : strings.HasPrefix authHeader (lit "Bearer ") = true)
    (hvalid : (validateToken lib env jwksCache
      (strings.TrimPrefix authHeader (lit "Bearer "))).value = .ok token)
    (hclaims : token.Claims = .MapClaims claims) :
    (∀ userID, claims (lit "sub") = some (.string userID) →
        (SupabaseAuthMiddleware lib env jwksCache authHeader).value = .next userID claims) ∧
      ((∀ userID, claims (lit "sub") ≠ some (.string userID)) →
        (SupabaseAuthMiddleware lib env jwksCache authHeader).value =
          .abort 500 (.message "User ID not found in token")) := by
  have hne : authHeader ≠ [] := by
    intro h
    rw [h] at hpre
    exact absurd hpre (by decide)
  have hbody : (SupabaseAuthMiddleware lib env jwksCache authHeader).value =
      (match claims (lit "sub") with
        | some (.string userID) => Outcome.next userID claims
        | _ => Outcome.abort 500 (.message "User ID not found in token")) := by
    simp only [SupabaseAuthMiddleware, if_neg hne, hpre, hvalid, hclaims,
      not_true_eq_false, if_false]
    split <;> rfl
  rw [hbody]
  constructor
  · intro userID hsub
    rw [hsub]
  · intro hsub
    split
    · rename_i userID h
      exact absurd h (hsub userID)
    · rfl

/-- C8, amended, at three sample tokens: "sub" = "user-1", a number, and absent. -/
theorem middleware_subject_witness :
    (SupabaseAuthMiddleware sampleLib (sampleEnv (.error [])) freshCache
        (lit "Bearer rs256.user-1")).value =
        .next (lit "user-1") (sampleClaims (some (.string (lit "user-1")))) ∧
      (SupabaseAuthMiddleware sampleLib (sampleEnv (.error [])) freshCache
        (lit "Bearer rs256.number-sub")).value =
        .abort 500 (.message "User ID not found in token") ∧
      (SupabaseAuthMiddleware sampleLib (sampleEnv (.error [])) freshCache
        (lit "Bearer rs256.no-sub")).value =
        .abort 500 (.message "User ID not found in token") :=
  ⟨(middleware_subject sampleLib (sampleEnv (.error [])) freshCache (lit "Bearer rs256.user-1")
      { sampleToken (.RSA (lit "RS256")) (lit "RS256") (some (.string (lit "user-1"))) with
        Valid := true }
      (sampleClaims (some (.string (lit "user-1")))) (by decide) rfl rfl).1 (lit "user-1") rfl,
    (middleware_subject sampleLib (sampleEnv (.error [])) freshCache
      (lit "Bearer rs256.number-sub")
      { sampleToken (.RSA (lit "RS256")) (lit "RS256") (some (.number 0)) with Valid := true }
      (sampleClaims (some (.number 0))) (by decide) rfl rfl).2
      (fun _ h => Value.noConfusion (Option.some.inj h)),
    (middleware_subject sampleLib (sampleEnv (.error [])) freshCache (lit "Bearer rs256.no-sub")
      { sampleToken (.RSA (lit "RS256")) (lit "RS256") none with Valid := true }
      (sampleClaims none) (by decide) rfl rfl).2 (fun _ h => Option.noConfusion h)⟩

/-- C9: the code does not coalesce concurrent refreshes. When the callers of
`calls` all run the test of line 119 on the same empty or expired cache before
any of them stores, every one of them performs its own fetch: the schedule
logs one request per caller, not one request in all. -/
theorem concurrent_callers_each_fetch (calls : List (Env × GoString)) (jwksCache : JWKSCache)
    (hstale : ∀ call ∈ calls, call.1.SUPABASE_URL ≠ [] ∧
      (jwksCache.keys = none ∨ call.1.now > jwksCache.expiry)) :
    (allCheckThenAllFetch calls jwksCache).log =
        (calls.map fun call => .httpGet (jwksURL call.1.SUPABASE_URL)) ∧
      (allCheckThenAllFetch calls jwksCache).log.length = calls.length := by
  have hlog : (allCheckThenAllFetch calls jwksCache).log =
      calls.map fun call => .httpGet (jwksURL call.1.SUPABASE_URL) := by
    simp only [allCheckThenAllFetch, round_check_stale calls jwksCache hstale,
      round_fetch_log, List.nil_append]
  refine ⟨hlog, ?_⟩
  rw [hlog, List.length_map]

/-- C9 at two callers on the empty cache: two requests are made, and each
caller returns the key built from its own response. -/
theorem concurrent_callers_each_fetch_witness :
    (allCheckThenAllFetch
        [(sampleEnv (.ok ⟨200, .ok sampleKeys⟩), lit "abc"),
          (sampleEnv (.ok ⟨200, .ok sampleKeys⟩), lit "abc")] emptyCache).log =
        [.httpGet (lit "https://example.supabase.co/auth/v1/jwks"),
          .httpGet (lit "https://example.supabase.co/auth/v1/jwks")] ∧
      (allCheckThenAllFetch
        [(sampleEnv (.ok ⟨200, .ok sampleKeys⟩), lit "abc"),
          (sampleEnv (.ok ⟨200, .ok sampleKeys⟩), lit "abc")] emptyCache).value =
        [.returned (.ok ⟨187, 65537⟩), .returned (.ok ⟨187, 65537⟩)] :=
  ⟨(concurrent_callers_each_fetch
      [(sampleEnv (.ok ⟨200, .ok sampleKeys⟩), lit "abc"),
        (sampleEnv (.ok ⟨200, .ok sampleKeys⟩), lit "abc")] emptyCache
      (by
        intro call hcall
        simp only [List.mem_cons, List.mem_singleton, List.not_mem_nil, or_false,
          or_self] at hcall
        subst hcall
        exact ⟨by decide, Or.inl rfl⟩)).1,
    rfl⟩

/-- C10: the handler slices `authHeader[7:]` without testing the prefix. On the
6-byte header "Bearer" the slice is out of range and the handler panics before
any response is written. On a header of at least 7 bytes the first 7 bytes are
not examined: the handler does what it does on "Bearer " followed by the rest;
so on 7 arbitrary bytes followed by a valid token it answers 200
authenticated:true although the header does not start with "Bearer ". -/
theorem VerifySession_unchecked_slice (lib : jwt.Library) (env : Env) (jwksCache : JWKSCache)
    (b0 b1 b2 b3 b4 b5 b6 : Nat) (tokenString : GoString) :
    VerifySession lib env jwksCache (lit "Bearer") = ⟨.panics, jwksCache, []⟩ ∧
      VerifySession lib env jwksCache (b0 :: b1 :: b2 :: b3 :: b4 :: b5 :: b6 :: tokenString) =
        VerifySession lib env jwksCache (lit "Bearer " ++ tokenString) ∧
      strings.HasPrefix (lit "0123456rs256.user-1") (lit "Bearer ") = false ∧
      (VerifySession sampleLib (sampleEnv (.error [])) freshCache
        (lit "0123456rs256.user-1")).value = .json 200 true := by
  have hs : sliceFrom (b0 :: b1 :: b2 :: b3 :: b4 :: b5 :: b6 :: tokenString) 7 =
      some tokenString := by
    simp [sliceFrom]
  have hb : sliceFrom (lit "Bearer " ++ tokenString) 7 = some tokenString := by
    simp [sliceFrom, lit]
  have hne : lit "Bearer " ++ tokenString ≠ [] := by simp [lit]
  refine ⟨rfl, ?_, by decide, by decide⟩
  simp only [VerifySession, hs, hb, if_neg hne, List.cons_ne_nil, if_false]

end Auth
